import Mathlib

/-!
Verification of the kms-connect document intake-and-verification pipeline.

This file shallowly embeds the relevant parts of the backend:
  * `account/document_specs.py` — the DocumentSpec registry and file validator;
  * `account/services/scoring.py` — the readiness score (modelled in exact
    rational arithmetic);
  * `account/models.py` — the `ApplicantProfile.approve` helper and the
    review/verification enumerations;
  * `account/views.py` — the `ApplicantProfileViewSet.approve` action;
  * `account/serializers.py` — `ApplicantDocumentSerializer.validate`/`update`
    (the document review state machine);
  * `account/ocr.py` — the KTP text parser heuristics;
  * `account/tasks.py` — the OCR worker success path and the image
    optimization shrink loop.

String processing is embedded over `List Char` so that every definition
evaluates inside the kernel.  Python regular expressions are compiled by hand
into explicit character scanners with the same matching semantics on the
relevant inputs; each scanner states the regex it embeds.  Two deliberate
modelling notes: case folding is ASCII (`Char.toLower`), which agrees with
Python on the ASCII labels the parser matches, and the Python whitespace
class `\s` is modelled exactly (space, tab, newline, carriage return,
vertical tab, form feed).
-/

namespace KmsConnect

/-! ### Python string primitives, over `List Char` -/

/-- The Python `\s` class and the characters `str.strip` removes:
space, tab, newline, carriage return, vertical tab, form feed. -/
def pyIsSpace (c : Char) : Bool :=
  c = ' ' || c = '\t' || c = '\n' || c = '\r' || c = '\u000B' || c = '\u000C'

/-- `str.strip()` on a character list: drop whitespace from both ends. -/
def stripL (cs : List Char) : List Char :=
  ((cs.dropWhile pyIsSpace).reverse.dropWhile pyIsSpace).reverse

/-- `str.strip()`. -/
def pyStrip (s : String) : String := String.mk (stripL s.data)

/-- `str.lower()` (ASCII case folding, which covers every label the code
matches). -/
def pyLower (s : String) : String := String.mk (s.data.map Char.toLower)

/-- `str.isdigit()`: non-empty and all digits (ASCII digits; the inputs the
claims touch are ASCII). -/
def pyIsDigit (s : String) : Bool := !s.data.isEmpty && s.data.all Char.isDigit

/-! ### DocumentSpec registry and validator (`account/document_specs.py`) -/

/-- The `format` key of a spec: "pdf" or "image". -/
inductive DocFormat where
  | pdf
  | image
deriving DecidableEq, Repr

/-- One entry of `DOCUMENT_SPECS`: allowed format, allowed (lowercase, dotted)
extensions and maximum size in bytes. -/
structure DocumentSpec where
  fmt : DocFormat
  extensions : List String
  maxBytes : Nat
deriving DecidableEq, Repr

/-- An inbound upload: Django exposes `file.name` and `file.size`. -/
structure UploadedFile where
  name : String
  size : Nat
deriving DecidableEq, Repr

/-- Structured form of the two `ValidationError`s raised by
`validate_document_file`, discriminated exactly as the source discriminates
them via the `code=` keyword (`invalid_format` / `file_too_large`). -/
inductive DocValidationError where
  | invalidFormat (typeCode : String) (allowed : List String)
  | fileTooLarge (fmt : DocFormat) (maxBytes : Nat)
deriving DecidableEq, Repr

/-- `MAX_PDF_BYTES = 2 * 1024 * 1024`. -/
def MAX_PDF_BYTES : Nat := 2 * 1024 * 1024

/-- `MAX_IMAGE_BYTES = 500 * 1024`. -/
def MAX_IMAGE_BYTES : Nat := 500 * 1024

/-- `PDF_EXTENSIONS = (".pdf",)`. -/
def PDF_EXTENSIONS : List String := [".pdf"]

/-- `IMAGE_EXTENSIONS = (".jpg", ".jpeg", ".png")`. -/
def IMAGE_EXTENSIONS : List String := [".jpg", ".jpeg", ".png"]

/-- The `DOCUMENT_SPECS` table, entry for entry. -/
def DOCUMENT_SPECS : List (String × DocumentSpec) :=
  [ ("ijasah", ⟨.pdf, PDF_EXTENSIONS, MAX_PDF_BYTES⟩)
  , ("sertifikat-keterampilan", ⟨.pdf, PDF_EXTENSIONS, MAX_PDF_BYTES⟩)
  , ("ijin-keluarga", ⟨.pdf, PDF_EXTENSIONS, MAX_PDF_BYTES⟩)
  , ("surat-keterangan-pemberi-ijin", ⟨.pdf, PDF_EXTENSIONS, MAX_PDF_BYTES⟩)
  , ("surat-kesehatan", ⟨.pdf, PDF_EXTENSIONS, MAX_PDF_BYTES⟩)
  , ("surat-keterangan-status-perkawinan", ⟨.pdf, PDF_EXTENSIONS, MAX_PDF_BYTES⟩)
  , ("perjanjian-penempatan", ⟨.pdf, PDF_EXTENSIONS, MAX_PDF_BYTES⟩)
  , ("photo-tki", ⟨.image, IMAGE_EXTENSIONS, MAX_IMAGE_BYTES⟩)
  , ("ktp", ⟨.image, IMAGE_EXTENSIONS, MAX_IMAGE_BYTES⟩)
  , ("kartu-keluarga", ⟨.image, IMAGE_EXTENSIONS, MAX_IMAGE_BYTES⟩)
  , ("kartu-bpjs", ⟨.image, IMAGE_EXTENSIONS, MAX_IMAGE_BYTES⟩)
  , ("paspor", ⟨.image, IMAGE_EXTENSIONS, MAX_IMAGE_BYTES⟩) ]

/-- `get_spec_for_code`: `None` for a falsy code, otherwise a dictionary
lookup on the stripped, lowercased code. -/
def get_spec_for_code (code : String) : Option DocumentSpec :=
  if code = "" then none
  else DOCUMENT_SPECS.lookup (pyLower (pyStrip code))

/-- The substring of `name` after its last dot (`name.rsplit(".", 1)[-1]`
when a dot is present). -/
def afterLastDot (cs : List Char) : List Char :=
  (cs.reverse.takeWhile (fun c => !(c = '.'))).reverse

/-- The extension computed by `validate_document_file`:
`"." + (file.name.rsplit(".", 1)[-1].lower() if "." in file.name else "")`. -/
def extOf (name : String) : String :=
  "." ++ (if name.data.contains '.' then
            String.mk ((afterLastDot name.data).map Char.toLower)
          else "")

/-- The known-spec branch of `validate_document_file`: extension check, then
size check. -/
def validate_known (spec : DocumentSpec) (file : UploadedFile)
    (doc_type_code : String) : Except DocValidationError Unit :=
  let ext := extOf file.name
  if ext ∉ spec.extensions then
    .error (.invalidFormat doc_type_code spec.extensions)
  else if file.size > spec.maxBytes then
    .error (.fileTooLarge spec.fmt spec.maxBytes)
  else
    .ok ()

/-- `validate_document_file(file, doc_type_code)`: a no-op for unknown codes,
otherwise checks the extension against `spec["extensions"]` and the size
against `spec["max_bytes"]`.  Pure by construction (the source raises or
returns, with no other effects). -/
def validate_document_file (file : UploadedFile) (doc_type_code : String) :
    Except DocValidationError Unit :=
  match get_spec_for_code doc_type_code with
  | none => .ok ()
  | some spec => validate_known spec file doc_type_code

/-! ### Readiness scoring (`account/services/scoring.py`) -/

/-- Value of one completeness field, as `_is_filled` classifies values:
`None`, a string, a boolean, or any other non-`None` value (numbers
including zero, dates, foreign-key ids), which always counts as filled. -/
inductive FieldValue where
  | missing
  | strVal (s : String)
  | boolVal (b : Bool)
  | otherVal
deriving DecidableEq, Repr

/-- `_is_filled(value)`. -/
def isFilled : FieldValue → Bool
  | .missing => false
  | .strVal s => !(stripL s.data).isEmpty
  | .boolVal b => b
  | .otherVal => true

/-- `PROFILE_COMPLETENESS_WEIGHT = 0.6` (exact rational). -/
def PROFILE_COMPLETENESS_WEIGHT : ℚ := 6 / 10

/-- `DOCUMENT_WEIGHT = 0.4` (exact rational). -/
def DOCUMENT_WEIGHT : ℚ := 4 / 10

/-- The inputs of the scoring functions: the eleven
`PROFILE_COMPLETENESS_FIELDS` values in table order, plus the
`document_approval_rate` attribute (`none` models a missing/`None`/
unconvertible rate, which `document_ratio` treats as 0). -/
structure ScoringProfile where
  full_name : FieldValue
  nik : FieldValue
  birth_date : FieldValue
  gender : FieldValue
  address : FieldValue
  contact_phone : FieldValue
  province_id : FieldValue
  district_id : FieldValue
  village_id : FieldValue
  education_level : FieldValue
  marital_status : FieldValue
  document_approval_rate : Option ℚ
deriving DecidableEq

/-- The values of the eleven `PROFILE_COMPLETENESS_FIELDS`, in table order. -/
def completenessValues (p : ScoringProfile) : List FieldValue :=
  [ p.full_name, p.nik, p.birth_date, p.gender, p.address, p.contact_phone
  , p.province_id, p.district_id, p.village_id, p.education_level
  , p.marital_status ]

/-- `profile_completeness_ratio`: filled count over total (total is the
fixed field-list length; the `total == 0` guard is kept from the source). -/
def profile_completeness_ratio (p : ScoringProfile) : ℚ :=
  let vals := completenessValues p
  if vals.length = 0 then 0
  else ((vals.countP (fun v => isFilled v) : ℕ) : ℚ) / ((vals.length : ℕ) : ℚ)

/-- `document_ratio`: 0 for a missing rate, 0 for a rate `<= 0`, 1 for a
rate `>= 100`, else `rate / 100`. -/
def document_ratio (p : ScoringProfile) : ℚ :=
  match p.document_approval_rate with
  | none => 0
  | some rate => if rate ≤ 0 then 0 else if 100 ≤ rate then 1 else rate / 100

/-- Python `round(x, 1)` modelled in exact arithmetic: round `x * 10` to the
nearest integer and divide by 10 (tie behavior differs from Python's
round-half-even only at exact ties, which neither the claim nor the spec
pins down). -/
def roundTo1 (x : ℚ) : ℚ := ((round (x * 10) : ℤ) : ℚ) / 10

/-- `calculate_readiness_score`: weighted sum of the two ratios, clamped to
[0, 100] by the source's two `if` statements, then rounded to one decimal. -/
def calculate_readiness_score (p : ScoringProfile) : ℚ :=
  let pc_ratio := profile_completeness_ratio p
  let doc_ratio_val := document_ratio p
  let total := pc_ratio * PROFILE_COMPLETENESS_WEIGHT * 100
    + doc_ratio_val * DOCUMENT_WEIGHT * 100
  let clamped := if total < 0 then (0 : ℚ) else if total > 100 then 100 else total
  roundTo1 clamped

/-- Clamp, written as the spec writes it. -/
def clampQ (lo hi x : ℚ) : ℚ := max lo (min hi x)

/-- Modelled from the spec: the score formula exactly as the spec states it,
`clamp(profileCompletenessRatio × 0.6 × 100 + documentApprovalRatio × 0.4 ×
100, 0, 100)` rounded to one decimal. -/
def spec_readiness_score (p : ScoringProfile) : ℚ :=
  roundTo1 (clampQ 0 100 (profile_completeness_ratio p * (6 / 10) * 100
    + document_ratio p * (4 / 10) * 100))

/-! ### Applicant verification: the approve operation
(`account/models.py` `ApplicantProfile.approve`,
`account/views.py` `ApplicantProfileViewSet.approve`) -/

/-- `ApplicantVerificationStatus`: DRAFT, SUBMITTED, ACCEPTED, REJECTED. -/
inductive ApplicantVerificationStatus where
  | draft
  | submitted
  | accepted
  | rejected
deriving DecidableEq, Repr

/-- `DocumentReviewStatus`: PENDING, APPROVED, REJECTED. -/
inductive DocumentReviewStatus where
  | pending
  | approved
  | rejected
deriving DecidableEq, Repr

/-- The verification-relevant fields of an `ApplicantProfile` row.
Timestamps are modelled as naturals; reviewers by their user id. -/
structure ApplicantProfileState where
  verification_status : ApplicantVerificationStatus
  submitted_at : Option Nat
  verified_by : Option Nat
  verified_at : Option Nat
  verification_notes : String
deriving DecidableEq, Repr

/-- `ApplicantProfile.approve(verified_by, notes)`: requires SUBMITTED, then
sets ACCEPTED, the verifier, the verification timestamp and notes, and
backfills `submitted_at` if missing.  It performs no check of the
applicant's documents. -/
def ApplicantProfile.approve (p : ApplicantProfileState) (verified_by : Nat)
    (notes : String) (now : Nat) : Except String ApplicantProfileState :=
  if p.verification_status ≠ .submitted then
    .error "Hanya pelamar dengan status Dikirim yang dapat disetujui."
  else
    .ok { verification_status := .accepted
        , submitted_at := if p.submitted_at = none then some now else p.submitted_at
        , verified_by := some verified_by
        , verified_at := some now
        , verification_notes := notes }

/-- An applicant as the approve endpoint sees it: the profile row plus the
review statuses of the documents the applicant owns. -/
structure Applicant where
  profile : ApplicantProfileState
  documents : List DocumentReviewStatus
deriving DecidableEq, Repr

/-- `ApplicantProfileViewSet.approve` (the single-profile action): validates
that the profile is SUBMITTED, then delegates to the model helper.  Neither
layer consults `a.documents`. -/
def ApplicantProfileViewSet.approve (a : Applicant) (request_user : Nat)
    (notes : String) (now : Nat) : Except String ApplicantProfileState :=
  if a.profile.verification_status ≠ .submitted then
    .error "Hanya pelamar dengan status SUBMITTED yang dapat disetujui."
  else
    ApplicantProfile.approve a.profile request_user notes now

/-! ### Document review state machine
(`account/serializers.py` `ApplicantDocumentSerializer.validate`/`update`) -/

/-- `UserRole`. -/
inductive UserRole where
  | admin
  | staff
  | company
  | applicant
deriving DecidableEq, Repr

/-- The acting request user as the serializer sees it: id, whether
authenticated, and role. -/
structure RequestUser where
  userId : Nat
  authenticated : Bool
  role : UserRole
deriving DecidableEq, Repr

/-- The review-relevant fields of an `ApplicantDocument` row.  `file`,
`document_type` and the OCR fields do not interact with the review logic of
`validate`/`update` and are not modelled here. -/
structure ReviewDoc where
  review_status : DocumentReviewStatus
  reviewed_by : Option RequestUser
  reviewed_at : Option Nat
  review_notes : String
deriving DecidableEq, Repr

/-- The validated writable review fields of one update call: `none` means
the key is absent from `validated_data`.  `reviewed_by` is declared with
`allow_null=True`, hence doubly optional; `reviewed_at` is read-only and can
never appear. -/
structure ReviewAttrs where
  review_status : Option DocumentReviewStatus
  reviewed_by : Option (Option RequestUser)
  review_notes : Option String
deriving DecidableEq, Repr

/-- `ApplicantDocumentSerializer.validate(attrs)` on an update (`instance`
present): when the status is being set to REJECTED, notes must be non-empty
in the attrs or already present on the instance. -/
def serializerValidate (doc : ReviewDoc) (attrs : ReviewAttrs) :
    Except String ReviewAttrs :=
  if attrs.review_status = some .rejected then
    let review_notes := attrs.review_notes.getD ""
    if review_notes = "" ∧ doc.review_notes = "" then
      .error "Catatan review wajib diisi ketika status ditolak."
    else .ok attrs
  else .ok attrs

/-- `ApplicantDocumentSerializer.update(instance, validated_data)`: apply
the attrs, auto-set `reviewed_at`/`reviewed_by` on a first move to
APPROVED/REJECTED, and clear the three review fields on a move back to
PENDING. -/
def serializerUpdate (doc : ReviewDoc) (vd : ReviewAttrs)
    (requestUser : Option RequestUser) (now : Nat) : ReviewDoc :=
  let old_status := doc.review_status
  let old_reviewed_at := doc.reviewed_at
  let inst1 : ReviewDoc :=
    { review_status := vd.review_status.getD doc.review_status
    , reviewed_by := vd.reviewed_by.getD doc.reviewed_by
    , reviewed_at := doc.reviewed_at
    , review_notes := vd.review_notes.getD doc.review_notes }
  let new_status := inst1.review_status
  let inst2 : ReviewDoc :=
    if (new_status = .approved ∨ new_status = .rejected)
        ∧ old_status ≠ new_status ∧ old_reviewed_at = none then
      let withAt : ReviewDoc := { inst1 with reviewed_at := some now }
      if withAt.reviewed_by = none then
        match requestUser with
        | some u =>
          if u.authenticated ∧ (u.role = .admin ∨ u.role = .staff) then
            { withAt with reviewed_by := some u }
          else withAt
        | none => withAt
      else withAt
    else inst1
  if new_status = .pending ∧ old_status ≠ .pending then
    { inst2 with reviewed_at := none, reviewed_by := none, review_notes := "" }
  else inst2

/-- The full reviewer action on one document: DRF runs `validate`, then
`update` on the validated attrs. -/
def setReviewStatus (doc : ReviewDoc) (attrs : ReviewAttrs)
    (requestUser : Option RequestUser) (now : Nat) : Except String ReviewDoc :=
  match serializerValidate doc attrs with
  | .error e => .error e
  | .ok vd => .ok (serializerUpdate doc vd requestUser now)

/-! ### Image optimization shrink loop
(`account/tasks.py` `optimize_document_image`, secondary loop) -/

/-- One shrink step: `max_side = int(max_side * 0.75)`.  For the integer
side lengths at hand the float product is exact (0.75 is a binary float and
the product is far below 2^53), so truncation gives `maxSide * 3 / 4`. -/
def shrinkStep (maxSide : Nat) : Nat := maxSide * 3 / 4

/-- The secondary shrink-and-recompress loop:
`while buf.tell() > target and max_side > 320:` shrink the side, resize and
re-encode at the fixed quality 55.  `encSize side` abstracts the byte size
of the quality-55 JPEG encoding of the image resized to maximum side length
`side` (the loop recomputes `buf` from the resized image each iteration).
The fuel argument only bounds the number of iterations so that the loop is
a definable function; the sufficiency theorem shows fuel `maxSide + 1`
always completes, making the fuelled function an exact model of the
`while` loop. -/
def optimizeShrinkLoop (encSize : Nat → Nat) (target : Nat) :
    Nat → Nat → Nat → Option (Nat × Nat)
  | 0, bufSize, maxSide =>
    if bufSize > target ∧ maxSide > 320 then none else some (bufSize, maxSide)
  | fuel + 1, bufSize, maxSide =>
    if bufSize > target ∧ maxSide > 320 then
      optimizeShrinkLoop encSize target fuel
        (encSize (shrinkStep maxSide)) (shrinkStep maxSide)
    else some (bufSize, maxSide)

/-! ### KTP text parser (`account/ocr.py` `parse_ktp_text`) -/

/-- Python `\w` on the ASCII inputs at hand: letter, digit or underscore. -/
def isWordChar (c : Char) : Bool := c.isAlpha || c.isDigit || c = '_'

/-- Substring occurrence of a literal character list. -/
def hasSubL (needle : List Char) : List Char → Bool
  | [] => needle.isEmpty
  | c :: cs => needle.isPrefixOf (c :: cs) || hasSubL needle cs

/-- `re.search` of a lowercase literal with `re.I`: containment in the
lowercased line. -/
def containsCI (line : String) (lit : String) : Bool :=
  hasSubL lit.data (line.data.map Char.toLower)

/-- `re.match(r"^<label>\s*[:.]?\s*", line, re.I)` combined with
`re.sub(same, "", line)`: when the line starts with the label
(case-insensitively), the remainder of the original line after greedily
consuming whitespace, one optional colon or period, and whitespace; else
`none`.  The three consumed classes are disjoint, so the greedy regex
consumes exactly this. -/
def labelRest (label : String) (line : String) : Option (List Char) :=
  if label.data.isPrefixOf (line.data.map Char.toLower) then
    let rest := (line.data.drop label.length).dropWhile pyIsSpace
    let rest := if rest.head? = some ':' ∨ rest.head? = some '.' then
        rest.drop 1
      else rest
    some (rest.dropWhile pyIsSpace)
  else none

/-- `re.match(r"^<label>\s*$", line, re.I)`: the line is the bare label
followed only by whitespace. -/
def isBareLabel (label : String) (line : String) : Bool :=
  label.data.isPrefixOf (line.data.map Char.toLower)
    && (line.data.drop label.length).all pyIsSpace

/-- `text.splitlines()` for the `\n` / `\r\n` / `\r` conventions.  (Python
also produces no trailing empty line; the difference shows up only as empty
entries, which `ktpLines` filters away, so the composition agrees with the
source.) -/
def splitLinesGo : List Char → List Char → List (List Char)
  | [], acc => [acc.reverse]
  | '\r' :: '\n' :: cs, acc => acc.reverse :: splitLinesGo cs []
  | '\r' :: cs, acc => acc.reverse :: splitLinesGo cs []
  | '\n' :: cs, acc => acc.reverse :: splitLinesGo cs []
  | c :: cs, acc => splitLinesGo cs (c :: acc)

/-- `[ln.strip() for ln in text.splitlines() if ln.strip()]`. -/
def ktpLines (text : String) : List String :=
  ((splitLinesGo text.data []).map (fun l => String.mk (stripL l))).filter
    (fun l => !l.data.isEmpty)

/-- `" ".join(lines)`. -/
def joinSp : List String → String
  | [] => ""
  | [s] => s
  | s :: rest => s ++ " " ++ joinSp rest

/-- Attempt of `\b(\d{16})\b` at the current position: the previous
character (if any) is not a word character, the next sixteen characters are
digits, and the character after them (if any) is not a word character. -/
def nik16At (prev : Option Char) (cs : List Char) : Option (List Char) :=
  let boundaryOk := match prev with
    | none => true
    | some p => !isWordChar p
  if boundaryOk then
    let run := cs.take 16
    if run.length = 16 && run.all Char.isDigit then
      match cs.drop 16 with
      | [] => some run
      | c :: _ => if isWordChar c then none else some run
    else none
  else none

/-- `re.search(r"\b(\d{16})\b", full_text)`: the first match. -/
def nikSearch : Option Char → List Char → Option (List Char)
  | _, [] => none
  | prev, c :: cs =>
    match nik16At prev (c :: cs) with
    | some run => some run
    | none => nikSearch (some c) cs

/-- Exactly `n` leading digits. -/
def digitsAt (cs : List Char) (n : Nat) : Bool :=
  (cs.take n).length = n && (cs.take n).all Char.isDigit

/-- A date separator: dash or slash. -/
def dateSep (c : Char) : Bool := c = '-' || c = '/'

/-- One candidate decomposition of the dd-mm-yyyy shape (one or two digits, dash-or-slash, one or two digits, dash-or-slash, two to four digits) at the
current position with first/second group lengths `l1`, `l2`; two trailing
digits suffice for the last group (longer groups impose nothing more for
existence). -/
def dateLens (cs : List Char) (l1 l2 : Nat) : Bool :=
  digitsAt cs l1 &&
  (match cs.drop l1 with
   | s1 :: r1 =>
     dateSep s1 && digitsAt r1 l2 &&
       (match r1.drop l2 with
        | s2 :: r2 => dateSep s2 && digitsAt r2 2
        | [] => false)
   | [] => false)

/-- The date pattern matches at this position (enumerating the group
lengths replaces the regex engine's backtracking). -/
def dateHere (cs : List Char) : Bool :=
  dateLens cs 1 1 || dateLens cs 1 2 || dateLens cs 2 1 || dateLens cs 2 2

/-- `re.search` of the date shape anywhere in the line: a match exists at
some position. -/
def dateSearchL : List Char → Bool
  | [] => false
  | c :: cs => dateHere (c :: cs) || dateSearchL cs

/-- String wrapper for the date-pattern search. -/
def dateSearch (line : String) : Bool := dateSearchL line.data

/-- `re.split(r"[,/]|\s{2,}", line, maxsplit=2)`: split on a comma, a slash
or a maximal run of two or more whitespace characters, at most twice.  The
first argument is fuel equal to the input length: every step consumes at
least one character and exactly one unit of fuel, so the zero-fuel arm
(which returns the remainder as the final part, exactly like an exhausted
`maxsplit`) is never reached from `splitTTL`. -/
def splitPartsF : Nat → List Char → List Char → Nat → List String
  | 0, cs, acc, _ => [String.mk (acc.reverse ++ cs)]
  | _ + 1, [], acc, _ => [String.mk acc.reverse]
  | _ + 1, c :: cs, acc, 0 => [String.mk (acc.reverse ++ c :: cs)]
  | fuel + 1, c :: cs, acc, n + 1 =>
    if c = ',' || c = '/' then
      String.mk acc.reverse :: splitPartsF fuel cs [] n
    else if pyIsSpace c && (match cs with | c2 :: _ => pyIsSpace c2 | [] => false) then
      String.mk acc.reverse :: splitPartsF fuel (cs.dropWhile pyIsSpace) [] n
    else
      splitPartsF fuel cs (c :: acc) (n + 1)

/-- `re.split(r"[,/]|\s{2,}", line, maxsplit=2)` on a line. -/
def splitTTL (line : String) : List String :=
  splitPartsF line.data.length line.data [] 2

/-- `re.search(r"tempat\s*[/.]?\s*tgl\.?\s*lahir|ttl|lahir", line, re.I)`:
the first alternative ends in the literal "lahir", so the alternation
matches somewhere iff the line contains "ttl" or "lahir"
(case-insensitively). -/
def birthLabelSearch (line : String) : Bool :=
  containsCI line "ttl" || containsCI line "lahir"

/-- The `for p in parts` loop of the birth branch: each part is stripped;
a non-empty, non-numeric part becomes `birth_place` when that is still
empty, and otherwise — when `birth_date` is still empty and the part
contains a digit — becomes `birth_date`, breaking the inner loop. -/
def birthParts : List String → String → String → String × String
  | [], bp, bd => (bp, bd)
  | p :: ps, bp, bd =>
    let q := String.mk (stripL p.data)
    if !q.data.isEmpty && !(pyIsDigit q) then
      if bp = "" then birthParts ps q bd
      else if bd = "" && q.data.any Char.isDigit then (bp, q)
      else birthParts ps bp bd
    else birthParts ps bp bd

/-- The bare-"tempat" label branch: `result["birth_place"] = re.sub(...)`
overwrites `birth_place` whenever the line starts with the label. -/
def tempatUpdate (l : String) (bp : String) : String :=
  match labelRest "tempat" l with
  | some v => String.mk (stripL v)
  | none => bp

/-- The direct date-pattern branch: `result["birth_date"] = line.strip()`
whenever the line matches the date shape. -/
def dateUpdate (l : String) (bd : String) : String :=
  if dateSearch l then String.mk (stripL l.data) else bd

/-- The birth-field line scan.  Per line, in source order: the birth-label
branch (whose completion of `birth_date` breaks the whole loop), then the
bare-"tempat" branch, then the direct date-pattern branch. -/
def birthScanBody (l : String) (bp bd : String)
    (rec : String → String → String × String) : String × String :=
  if birthLabelSearch l then
    let r := birthParts (splitTTL l) bp bd
    if r.2 ≠ "" then r
    else rec (tempatUpdate l r.1) (dateUpdate l r.2)
  else
    rec (tempatUpdate l bp) (dateUpdate l bd)

/-- The recursion: `rec` continues the line loop with the updated
accumulators. -/
def birthScan : List String → String → String → String × String
  | [], bp, bd => (bp, bd)
  | l :: ls, bp, bd => birthScanBody l bp bd (birthScan ls)

/-- The name scan: at the first line matching `^nama\s*[:.]?\s*` take the
stripped remainder when it is non-empty and not purely numeric, then stop
(`break` is unconditional in that branch); a line matching `^nama\s*$`
followed by a suitable next line would take that next line, but every such
line also matches the first pattern, so that branch is unreachable. -/
def nameScanBody (l : String) (ls : List String) (rec : String) : String :=
  match labelRest "nama" l with
  | some rest =>
    let value := String.mk (stripL rest)
    if !value.data.isEmpty && !(pyIsDigit value) then value else ""
  | none =>
    if isBareLabel "nama" l then
      match ls with
      | nxt :: _ =>
        let candidate := String.mk (stripL nxt.data)
        if !candidate.data.isEmpty && !(pyIsDigit candidate)
            && candidate.length > 2 then candidate
        else rec
      | [] => ""
    else rec

/-- The recursion: `rec` is the continuation of the line loop, entered both
from the failing bare-label branch and from a line matching neither
pattern. -/
def nameScan : List String → String
  | [] => ""
  | l :: ls => nameScanBody l ls (nameScan ls)

/-- The name fallback: the first of the first five lines longer than four
characters, not purely numeric and not starting with a digit. -/
def nameFallback (lines : List String) : String :=
  match (lines.take 5).find? (fun l =>
      decide (l.length > 4) && !(pyIsDigit l)
        && !(match l.data with | c :: _ => c.isDigit | [] => false)) with
  | some l => String.mk (stripL l.data)
  | none => ""

/-- The name heuristic: the scan result, or the fallback when the scan
produced nothing. -/
def parseName (lines : List String) : String :=
  let n := nameScan lines
  if n = "" then nameFallback lines else n

/-- The address scan: a line starting with the "alamat" label yields its
remainder; the bare-label-then-next-line branch mirrors the source but is
unreachable for the same reason as in the name scan. -/
def addressScan : List String → Option String
  | [] => none
  | l :: ls =>
    match labelRest "alamat" l with
    | some v => some (String.mk (stripL v))
    | none =>
      if isBareLabel "alamat" l then
        match ls with
        | nxt :: _ => some (String.mk (stripL nxt.data))
        | [] => none
      else addressScan ls

/-- The address fallback: the first line containing one of the
neighborhood markers. -/
def addressFallback : List String → String
  | [] => ""
  | l :: ls =>
    if containsCI l "kel/" || containsCI l "rt/" || containsCI l "desa"
        || containsCI l "kec" then String.mk (stripL l.data)
    else addressFallback ls

/-- The address heuristic; the fallback runs whenever the scan produced a
falsy (empty) value, as in the source. -/
def parseAddress (lines : List String) : String :=
  let a := match addressScan lines with
    | some a => a
    | none => ""
  if a = "" then addressFallback lines else a

/-- Maximal word-character runs of a character list (the `\b`-delimited
words). -/
def wordRunsGo : List Char → List Char → List (List Char)
  | [], acc => if acc.isEmpty then [] else [acc.reverse]
  | c :: cs, acc =>
    if isWordChar c then wordRunsGo cs (c :: acc)
    else if acc.isEmpty then wordRunsGo cs []
    else acc.reverse :: wordRunsGo cs []

/-- `re.search(r"jenis\s*kelamin|kelamin|j[ke]\s*[:.]?\s*", line, re.I)`:
the first alternative contains the literal "kelamin", and the trailing
classes of the third may all match empty, so the alternation matches iff
the line contains "kelamin", "jk" or "je". -/
def genderLabelSearch (line : String) : Bool :=
  containsCI line "kelamin" || containsCI line "jk" || containsCI line "je"

/-- `re.search(r"\b(laki|laki-laki|pria|male|m)\b", line, re.I)`: a word
flanked by boundaries is a maximal word run, and any "laki-laki" match
contains a "laki" run, so the pattern matches iff some maximal word run is
laki, pria, male or m. -/
def maleSearch (line : String) : Bool :=
  (wordRunsGo (line.data.map Char.toLower) []).any
    (fun r => r == "laki".data || r == "pria".data || r == "male".data
      || r == "m".data)

/-- `re.search(r"\b(perempuan|wanita|female|f)\b", line, re.I)`, as for
`maleSearch`. -/
def femaleSearch (line : String) : Bool :=
  (wordRunsGo (line.data.map Char.toLower) []).any
    (fun r => r == "perempuan".data || r == "wanita".data
      || r == "female".data || r == "f".data)

/-- The gender scan: the first line matching the gender-label pattern
decides (break is unconditional): "M" on a male token, else "F" on a female
token, else empty. -/
def genderScan : List String → String
  | [] => ""
  | l :: ls =>
    if genderLabelSearch l then
      if maleSearch l then "M" else if femaleSearch l then "F" else ""
    else genderScan ls

/-- The parser output: the `KTP_OCR_KEYS` fields. -/
structure KtpData where
  nik : String
  name : String
  birth_place : String
  birth_date : String
  address : String
  gender : String
deriving DecidableEq, Repr

/-- `parse_ktp_text(text)`: all-empty on blank input, otherwise the five
heuristic scans over the stripped non-empty lines. -/
def parse_ktp_text (text : String) : KtpData :=
  if text = "" ∨ pyStrip text = "" then
    ⟨"", "", "", "", "", ""⟩
  else
    let lines := ktpLines text
    let full_text := joinSp lines
    let nik := match nikSearch none full_text.data with
      | some run => String.mk run
      | none => ""
    let bps := birthScan lines "" ""
    ⟨nik, parseName lines, bps.1, bps.2, parseAddress lines, genderScan lines⟩

/-! ### OCR extraction worker, success path
(`account/tasks.py` `process_document_ocr`) -/

/-- The OCR-relevant fields of a document row for the worker's success
path.  `docTypeCode` is `none` when the document has no type. -/
structure OcrDoc where
  docTypeCode : Option String
  ocr_text : String
  ocr_data : List (String × String)
  ocr_processed_at : Option Nat
deriving DecidableEq, Repr

/-- The dict the worker stores for a parsed KTP, keys in `KTP_OCR_KEYS`
order. -/
def ktpDataToMap (d : KtpData) : List (String × String) :=
  [ ("nik", d.nik), ("name", d.name), ("birth_place", d.birth_place)
  , ("birth_date", d.birth_date), ("address", d.address)
  , ("gender", d.gender) ]

/-- The success path of `process_document_ocr` once the text-detection call
has returned: `full_text = (response.full_text_annotation.text or
"").strip()` is stored in `ocr_text` and `ocr_processed_at` is set to now;
`ocr_data` becomes the parser output when the type code is "ktp" and the
stripped text is non-empty, and otherwise `doc.ocr_data or {}`. -/
def process_document_ocr_success (doc : OcrDoc) (returnedText : String)
    (now : Nat) : OcrDoc :=
  let full_text := pyStrip returnedText
  { docTypeCode := doc.docTypeCode
  , ocr_text := full_text
  , ocr_processed_at := some now
  , ocr_data :=
      if doc.docTypeCode = some "ktp" ∧ full_text ≠ "" then
        ktpDataToMap (parse_ktp_text full_text)
      else if doc.ocr_data.isEmpty then [] else doc.ocr_data }

/-- Modelled from the claim C5 as stated, for the counterexample: if some
line starts with the Nama label, the name is the (stripped) remainder of
the first such line; a line consisting solely of the label also starts with
it, so the claim's middle branch never applies under this reading; else the
first-of-five fallback. -/
def claimNameC5 (lines : List String) : String :=
  match lines.find? (fun l => (labelRest "nama" l).isSome) with
  | some l => String.mk (stripL ((labelRest "nama" l).getD []))
  | none => nameFallback lines

/-- The C5-amended name rule: the scan stops at the first line starting
with the Nama label; its stripped remainder counts only when non-empty and
not purely numeric; when the scan yields nothing the first-of-five fallback
applies; blank input gives the empty string. -/
def amendedNameC5 (text : String) : String :=
  if text = "" ∨ pyStrip text = "" then ""
  else
    let lines := ktpLines text
    let n := match lines.find? (fun l => (labelRest "nama" l).isSome) with
      | some l =>
        let value := String.mk (stripL ((labelRest "nama" l).getD []))
        if !value.data.isEmpty && !(pyIsDigit value) then value else ""
      | none => ""
    if n = "" then nameFallback lines else n

end KmsConnect

namespace KmsConnect

/-! ### Theorems for claims C2 and C10 -/

/-- Unfolding lemma: unknown code means validation is a no-op. -/
theorem validate_document_file_of_none {code : String} (f : UploadedFile)
    (h : get_spec_for_code code = none) :
    validate_document_file f code = .ok () := by
  unfold validate_document_file
  rw [h]

/-- Unfolding lemma: known code means validation runs the known-spec branch. -/
theorem validate_document_file_of_some {code : String} {spec : DocumentSpec}
    (f : UploadedFile) (h : get_spec_for_code code = some spec) :
    validate_document_file f code = validate_known spec f code := by
  unfold validate_document_file
  rw [h]

/-- Helper: a lookup in a table whose every entry satisfies a predicate
yields a value satisfying it. -/
theorem lookup_sat {α : Type} [BEq α] {β : Type} (P : β → Prop)
    (l : List (α × β)) (hall : ∀ p ∈ l, P p.2) :
    ∀ k b, l.lookup k = some b → P b := by
  induction l with
  | nil => intro k b h; simp [List.lookup] at h
  | cons hd tl ih =>
    intro k b h
    simp only [List.lookup] at h
    by_cases hk : (k == hd.1) = true
    · simp [hk] at h
      exact h ▸ hall hd (List.mem_cons_self _ _)
    · simp [hk] at h
      exact ih (fun p hp => hall p (List.mem_cons_of_mem _ hp)) k b h

/-- Every spec the registry can return has an extension list free of the
bare-dot string. -/
theorem spec_no_bare_dot (code : String) (spec : DocumentSpec)
    (h : get_spec_for_code code = some spec) : "." ∉ spec.extensions := by
  unfold get_spec_for_code at h
  by_cases hc : code = ""
  · simp [hc] at h
  · simp only [hc, if_false] at h
    exact lookup_sat (fun s => "." ∉ s.extensions) DOCUMENT_SPECS
      (by decide) (pyLower (pyStrip code)) spec h

/-- C2: for every (typeCode, file) pair, `validate_document_file` accepts iff
the code is unknown to the registry, or the file's lowercased after-last-dot
extension is in the spec's allowed set and its size is at most the spec's
maximum; when the extension check fails the error is the invalid-format
error, and when only the size check fails the error is the file-too-large
error.  The embedding is a pure function, so validation has no side effects. -/
theorem validate_document_file_spec (code : String) (f : UploadedFile) :
    (validate_document_file f code = .ok () ↔
      get_spec_for_code code = none ∨
        ∃ spec, get_spec_for_code code = some spec ∧
          extOf f.name ∈ spec.extensions ∧ f.size ≤ spec.maxBytes)
    ∧ (∀ spec, get_spec_for_code code = some spec →
        extOf f.name ∉ spec.extensions →
        validate_document_file f code =
          .error (.invalidFormat code spec.extensions))
    ∧ (∀ spec, get_spec_for_code code = some spec →
        extOf f.name ∈ spec.extensions → spec.maxBytes < f.size →
        validate_document_file f code =
          .error (.fileTooLarge spec.fmt spec.maxBytes)) := by
  refine ⟨?_, ?_, ?_⟩
  · constructor
    · intro h
      cases hs : get_spec_for_code code with
      | none => exact Or.inl rfl
      | some spec =>
        rw [validate_document_file_of_some f hs] at h
        unfold validate_known at h
        refine Or.inr ⟨spec, rfl, ?_, ?_⟩
        · by_contra hext
          rw [if_pos hext] at h
          cases h
        · by_cases hext : extOf f.name ∈ spec.extensions
          · rw [if_neg (fun hh => hh hext)] at h
            by_contra hsz
            rw [if_pos (by omega : f.size > spec.maxBytes)] at h
            cases h
          · rw [if_pos hext] at h
            cases h
    · intro h
      rcases h with h | ⟨spec, hs, hmem, hle⟩
      · exact validate_document_file_of_none f h
      · rw [validate_document_file_of_some f hs]
        unfold validate_known
        rw [if_neg (fun hh => hh hmem), if_neg (by omega : ¬ f.size > spec.maxBytes)]
  · intro spec hs hext
    rw [validate_document_file_of_some f hs]
    unfold validate_known
    rw [if_pos hext]
  · intro spec hs hmem hsz
    rw [validate_document_file_of_some f hs]
    unfold validate_known
    rw [if_neg (fun hh => hh hmem), if_pos (by omega : f.size > spec.maxBytes)]

/-- Witness for C2 at a concrete input: a 400000-byte `scan.PDF` upload for
the known type `ijasah` is accepted. -/
theorem validate_document_file_spec_witness :
    validate_document_file ⟨"scan.PDF", 400000⟩ "ijasah" = .ok ()
      ∧ get_spec_for_code "ijasah" = some ⟨.pdf, PDF_EXTENSIONS, MAX_PDF_BYTES⟩ := by
  have h := (validate_document_file_spec "ijasah" ⟨"scan.PDF", 400000⟩).1
  exact ⟨h.mpr (Or.inr ⟨⟨.pdf, PDF_EXTENSIONS, MAX_PDF_BYTES⟩, by decide, by decide,
    by decide⟩), by decide⟩

/-- C10: for every document type code known to the registry, a file whose
name contains no dot always fails with the invalid-format error, whatever
its size: the computed extension is the bare string "." and no spec in the
registry allows it. -/
theorem no_dot_name_always_invalid (code : String) (spec : DocumentSpec)
    (hs : get_spec_for_code code = some spec) (name : String) (size : Nat)
    (hnd : name.data.contains '.' = false) :
    validate_document_file ⟨name, size⟩ code =
        .error (.invalidFormat code spec.extensions)
      ∧ extOf name = "." ∧ "." ∉ spec.extensions := by
  have hext : extOf name = "." := by
    unfold extOf
    rw [hnd]
    rfl
  have hnot : "." ∉ spec.extensions := spec_no_bare_dot code spec hs
  refine ⟨?_, hext, hnot⟩
  rw [validate_document_file_of_some ⟨name, size⟩ hs]
  unfold validate_known
  rw [if_pos (by rw [show (⟨name, size⟩ : UploadedFile).name = name from rfl, hext]; exact hnot)]

/-- Witness for C10 at a concrete input: a dotless 1-byte file named
`myphoto` for the known type `ktp` is rejected as invalid format. -/
theorem no_dot_name_always_invalid_witness :
    get_spec_for_code "ktp" = some ⟨.image, IMAGE_EXTENSIONS, MAX_IMAGE_BYTES⟩
      ∧ validate_document_file ⟨"myphoto", 1⟩ "ktp" =
          .error (.invalidFormat "ktp" IMAGE_EXTENSIONS) := by
  refine ⟨by decide, ?_⟩
  exact (no_dot_name_always_invalid "ktp" ⟨.image, IMAGE_EXTENSIONS, MAX_IMAGE_BYTES⟩
    (by decide) "myphoto" 1 (by decide)).1

/-! ### Theorems for claim C8 -/

/-- Rounding to one decimal stays within [0, 100] on [0, 100]. -/
theorem roundTo1_bounds {x : ℚ} (h0 : 0 ≤ x) (h100 : x ≤ 100) :
    0 ≤ roundTo1 x ∧ roundTo1 x ≤ 100 := by
  unfold roundTo1
  have hlo : (0 : ℤ) ≤ round (x * 10) := by
    rw [round_eq]
    have : (0 : ℤ) = ⌊(1 / 2 : ℚ)⌋ := by norm_num
    rw [this]
    exact Int.floor_le_floor (by linarith)
  have hhi : round (x * 10) ≤ (1000 : ℤ) := by
    rw [round_eq]
    have : x * 10 + 1 / 2 < ((1001 : ℤ) : ℚ) := by push_cast; linarith
    exact Int.le_of_lt_add_one (Int.floor_lt.mpr this)
  constructor
  · have : (0 : ℚ) ≤ ((round (x * 10) : ℤ) : ℚ) := by exact_mod_cast hlo
    linarith
  · have : ((round (x * 10) : ℤ) : ℚ) ≤ 1000 := by exact_mod_cast hhi
    linarith

/-- The completeness ratio is within [0, 1]. -/
theorem profile_completeness_ratio_bounds (p : ScoringProfile) :
    0 ≤ profile_completeness_ratio p ∧ profile_completeness_ratio p ≤ 1 := by
  unfold profile_completeness_ratio
  dsimp only
  have hlen : (completenessValues p).length = 11 := by
    unfold completenessValues
    rfl
  rw [hlen]
  have hcount : (completenessValues p).countP (fun v => isFilled v) ≤ 11 := by
    calc (completenessValues p).countP (fun v => isFilled v)
        ≤ (completenessValues p).length := List.countP_le_length _
      _ = 11 := hlen
  rw [if_neg (by norm_num : ¬ (11 : ℕ) = 0)]
  constructor
  · positivity
  · rw [div_le_one (by norm_num)]
    exact_mod_cast hcount

/-- The document ratio is within [0, 1]. -/
theorem document_ratio_bounds (p : ScoringProfile) :
    0 ≤ document_ratio p ∧ document_ratio p ≤ 1 := by
  unfold document_ratio
  cases h : p.document_approval_rate with
  | none => norm_num
  | some rate =>
    dsimp only
    by_cases h0 : rate ≤ 0
    · rw [if_pos h0]; norm_num
    · rw [if_neg h0]
      by_cases h100 : 100 ≤ rate
      · rw [if_pos h100]; norm_num
      · rw [if_neg h100]
        constructor
        · exact div_nonneg (by linarith) (by norm_num)
        · rw [div_le_one (by norm_num)]; linarith

/-- C8: the readiness score equals the spec's formula — the weighted ratio
sum clamped to [0, 100] and rounded to one decimal — and is bounded by 0 and
100 for every input.  Modelled in exact rational arithmetic. -/
theorem readiness_score_formula_and_bounds (p : ScoringProfile) :
    calculate_readiness_score p = spec_readiness_score p
      ∧ 0 ≤ calculate_readiness_score p
      ∧ calculate_readiness_score p ≤ 100 := by
  have hpc := profile_completeness_ratio_bounds p
  have hdr := document_ratio_bounds p
  unfold calculate_readiness_score spec_readiness_score clampQ
    PROFILE_COMPLETENESS_WEIGHT DOCUMENT_WEIGHT
  dsimp only
  set t := profile_completeness_ratio p * (6 / 10) * 100
    + document_ratio p * (4 / 10) * 100 with ht
  have htlo : 0 ≤ t := by rw [ht]; nlinarith [hpc.1, hpc.2, hdr.1, hdr.2]
  have hthi : t ≤ 100 := by rw [ht]; nlinarith [hpc.1, hpc.2, hdr.1, hdr.2]
  have hclamp : (if t < 0 then (0 : ℚ) else if t > 100 then 100 else t)
      = max 0 (min 100 t) := by
    rw [if_neg (by linarith : ¬ t < 0), if_neg (by linarith : ¬ t > 100)]
    rw [min_eq_right hthi, max_eq_right htlo]
  rw [hclamp]
  refine ⟨rfl, ?_⟩
  exact roundTo1_bounds (le_max_left _ _)
    (by rw [max_eq_right (by simp [htlo] : (0:ℚ) ≤ min 100 t)]
        exact min_le_left _ _)

/-! ### Theorem for claim C1 -/

/-- C1 (code divergence): the approve operation, applied to a SUBMITTED
profile whose applicant owns one document that is PENDING (not APPROVED),
succeeds and sets the status to ACCEPTED — the claimed document-approval
precondition is never checked on this path (it exists only in
`ApplicantUserSerializer.validate`, a different endpoint). -/
theorem approve_ignores_unapproved_documents :
    (⟨⟨.submitted, some 1, none, none, ""⟩,
        [DocumentReviewStatus.pending]⟩ : Applicant).documents.all
        (fun d => d ≠ DocumentReviewStatus.approved) = true
      ∧ ApplicantProfileViewSet.approve
          ⟨⟨.submitted, some 1, none, none, ""⟩, [DocumentReviewStatus.pending]⟩
          7 "" 10
        = .ok ⟨.accepted, some 1, some 7, some 10, ""⟩ := by
  exact ⟨by decide, by rfl⟩

/-! ### Theorems for claims C3 and C4 -/

/-- A successful `validate` returns the attrs unchanged. -/
theorem serializerValidate_ok {doc : ReviewDoc} {attrs vd : ReviewAttrs}
    (h : serializerValidate doc attrs = .ok vd) : vd = attrs := by
  unfold serializerValidate at h
  split at h
  · dsimp only at h
    split at h
    · cases h
    · cases h; rfl
  · cases h; rfl

/-- A successful reviewer action computes `update` on the original attrs. -/
theorem setReviewStatus_ok_eq {doc : ReviewDoc} {attrs : ReviewAttrs}
    {requestUser : Option RequestUser} {now : Nat} {d : ReviewDoc}
    (h : setReviewStatus doc attrs requestUser now = .ok d) :
    d = serializerUpdate doc attrs requestUser now := by
  unfold setReviewStatus at h
  rcases hval : serializerValidate doc attrs with e | vd
  · rw [hval] at h; cases h
  · rw [hval] at h
    cases h
    rw [serializerValidate_ok hval]

/-- C3 (code divergence): on a document that already carries review notes,
a call that sets the status to REJECTED while explicitly supplying empty
notes passes validation (the guard is satisfied by the pre-existing notes)
but then overwrites the notes with the empty string — the call succeeds and
leaves the document REJECTED with empty `review_notes`, violating the
claimed invariant. -/
theorem rejected_empty_notes_overwrite_bug :
    (setReviewStatus ⟨.pending, none, none, "foto buram"⟩
        ⟨some .rejected, none, some ""⟩ none 7).toOption.map
        (fun d => (d.review_status, d.review_notes))
      = some (DocumentReviewStatus.rejected, "") := by
  rfl

/-- C4: in a successful update, (a) on the first transition away from
PENDING (old status PENDING, `reviewed_at` not yet set) the result carries
`reviewed_at = now`, and carries the acting authenticated admin/staff
reviewer in `reviewed_by` when none was supplied in the attrs or present on
the record; and (b) on any transition back to PENDING the result has
`reviewed_at`, `reviewed_by` and `review_notes` cleared unconditionally. -/
theorem review_audit_fields_correct (doc : ReviewDoc)
    (attrs : ReviewAttrs) (requestUser : Option RequestUser) (now : Nat) :
    (∀ s d, doc.review_status = .pending → doc.reviewed_at = none →
      attrs.review_status = some s → s ≠ .pending →
      setReviewStatus doc attrs requestUser now = .ok d →
      d.reviewed_at = some now
        ∧ (attrs.reviewed_by.getD doc.reviewed_by = none →
            ∀ u, requestUser = some u → u.authenticated = true →
              (u.role = .admin ∨ u.role = .staff) →
              d.reviewed_by = some u))
    ∧ (∀ d, attrs.review_status = some .pending →
        doc.review_status ≠ .pending →
        setReviewStatus doc attrs requestUser now = .ok d →
        d.reviewed_at = none ∧ d.reviewed_by = none ∧ d.review_notes = "") := by
  constructor
  · intro s d hp hra hs hsp heq
    rw [setReviewStatus_ok_eq heq]
    unfold serializerUpdate
    dsimp only
    rw [hs, hp, Option.getD_some]
    have houter : ¬ (s = DocumentReviewStatus.pending
        ∧ DocumentReviewStatus.pending ≠ DocumentReviewStatus.pending) :=
      fun hh => hh.2 rfl
    rw [if_neg houter]
    have hcond : (s = DocumentReviewStatus.approved
          ∨ s = DocumentReviewStatus.rejected)
        ∧ DocumentReviewStatus.pending ≠ s ∧ doc.reviewed_at = none := by
      refine ⟨?_, fun hh => hsp hh.symm, hra⟩
      cases s with
      | pending => exact absurd rfl hsp
      | approved => exact Or.inl rfl
      | rejected => exact Or.inr rfl
    rw [if_pos hcond]
    by_cases hrb : attrs.reviewed_by.getD doc.reviewed_by = none
    · rw [if_pos hrb]
      cases requestUser with
      | none =>
        exact ⟨rfl, fun _ u hu => by cases hu⟩
      | some u =>
        dsimp only
        by_cases hu : u.authenticated = true
            ∧ (u.role = UserRole.admin ∨ u.role = UserRole.staff)
        · rw [if_pos hu]
          refine ⟨rfl, fun _ v hv _ _ => ?_⟩
          cases hv
          rfl
        · rw [if_neg hu]
          refine ⟨rfl, fun _ v hv hauth hrole => ?_⟩
          cases hv
          exact absurd ⟨hauth, hrole⟩ hu
    · rw [if_neg hrb]
      exact ⟨rfl, fun hh => absurd hh hrb⟩
  · intro d hs hp heq
    rw [setReviewStatus_ok_eq heq]
    unfold serializerUpdate
    dsimp only
    rw [hs, Option.getD_some]
    rw [if_pos ⟨rfl, hp⟩]
    exact ⟨rfl, rfl, rfl⟩

/-- Witness for C4: part (a) at a PENDING document approved by an
authenticated admin with no reviewer supplied, and part (b) at an APPROVED
document reopened to PENDING. -/
theorem review_audit_fields_correct_witness :
    setReviewStatus ⟨.pending, none, none, ""⟩ ⟨some .approved, none, none⟩
        (some ⟨3, true, .admin⟩) 5
      = .ok ⟨.approved, some ⟨3, true, .admin⟩, some 5, ""⟩
    ∧ (⟨.approved, some ⟨3, true, .admin⟩, some 5, ""⟩ : ReviewDoc).reviewed_at = some 5
    ∧ (⟨.approved, some ⟨3, true, .admin⟩, some 5, ""⟩ : ReviewDoc).reviewed_by
        = some ⟨3, true, .admin⟩
    ∧ setReviewStatus ⟨.approved, some ⟨3, true, .admin⟩, some 5, "ok"⟩
        ⟨some .pending, none, none⟩ none 9
      = .ok ⟨.pending, none, none, ""⟩
    ∧ (⟨.pending, none, none, ""⟩ : ReviewDoc).reviewed_at = none := by
  have heqa : setReviewStatus ⟨.pending, none, none, ""⟩
      ⟨some .approved, none, none⟩ (some ⟨3, true, .admin⟩) 5
      = .ok ⟨.approved, some ⟨3, true, .admin⟩, some 5, ""⟩ := by rfl
  have heqb : setReviewStatus ⟨.approved, some ⟨3, true, .admin⟩, some 5, "ok"⟩
      ⟨some .pending, none, none⟩ none 9
      = .ok ⟨.pending, none, none, ""⟩ := by rfl
  have ha := (review_audit_fields_correct ⟨.pending, none, none, ""⟩
    ⟨some .approved, none, none⟩ (some ⟨3, true, .admin⟩) 5).1
    .approved ⟨.approved, some ⟨3, true, .admin⟩, some 5, ""⟩
    rfl rfl rfl (by decide) heqa
  have hb := (review_audit_fields_correct
    ⟨.approved, some ⟨3, true, .admin⟩, some 5, "ok"⟩
    ⟨some .pending, none, none⟩ none 9).2
    ⟨.pending, none, none, ""⟩ rfl (by decide) heqb
  exact ⟨heqa, ha.1, ha.2 rfl ⟨3, true, .admin⟩ rfl rfl (Or.inl rfl),
    heqb, hb.1⟩

/-! ### Theorems for claims C5, C6 and C7 -/

/-- A line the label-prefix regex rejects is not a bare label line either
(both start with the same prefix test). -/
theorem labelRest_none_not_bare {label line : String}
    (h : labelRest label line = none) : isBareLabel label line = false := by
  unfold labelRest at h
  unfold isBareLabel
  by_cases hb : label.data.isPrefixOf (line.data.map Char.toLower) = true
  · rw [if_pos hb] at h
    cases h
  · have hb2 : label.data.isPrefixOf (line.data.map Char.toLower) = false := by
      revert hb
      cases label.data.isPrefixOf (line.data.map Char.toLower) <;> simp
    rw [hb2]
    rfl

/-- The name scan equals its first-match formulation: the first line
matching the Nama-prefix regex decides, and the bare-label branch never
fires. -/
theorem nameScan_eq_find (lines : List String) :
    nameScan lines
      = match lines.find? (fun l => (labelRest "nama" l).isSome) with
        | some l =>
          let value := String.mk (stripL ((labelRest "nama" l).getD []))
          if !value.data.isEmpty && !(pyIsDigit value) then value else ""
        | none => "" := by
  induction lines with
  | nil => rfl
  | cons l ls ih =>
    have hunf : nameScan (l :: ls) = nameScanBody l ls (nameScan ls) := rfl
    cases hlr : labelRest "nama" l with
    | some rest =>
      have hfind : (l :: ls).find? (fun x => (labelRest "nama" x).isSome) = some l :=
        List.find?_cons_of_pos _ (by rw [hlr]; rfl)
      rw [hfind, hunf]
      unfold nameScanBody
      rw [hlr]
      dsimp only
      rw [hlr]
      rfl
    | none =>
      have hfind : (l :: ls).find? (fun x => (labelRest "nama" x).isSome)
          = ls.find? (fun x => (labelRest "nama" x).isSome) :=
        List.find?_cons_of_neg _ (by rw [hlr]; simp)
      rw [hfind, hunf]
      unfold nameScanBody
      rw [hlr]
      dsimp only
      rw [labelRest_none_not_bare hlr,
        if_neg (fun hh => Bool.false_ne_true hh)]
      exact ih

/-- C5 (amended): for every input text, the parsed name equals the amended
rule — the scan stops at the first line starting with the Nama label and
takes its remainder only when non-empty and not purely numeric (a line that
is solely the label also starts with it, so the next-line branch is
unreachable); if the scan yields nothing, the first-of-five fallback
applies. -/
theorem name_heuristic_amended (text : String) :
    (parse_ktp_text text).name = amendedNameC5 text := by
  unfold parse_ktp_text amendedNameC5
  by_cases hg : text = "" ∨ pyStrip text = ""
  · rw [if_pos hg, if_pos hg]
  · rw [if_neg hg, if_neg hg]
    dsimp only
    unfold parseName
    rw [nameScan_eq_find]

/-- C5 (counterexample to the claim as stated): on the text
`"Nama:" newline "BUDI"` the first line starts with the Nama label with
empty remainder, so the claim predicts the empty name (or, reading the line
as solely-a-label, the next line `"BUDI"`); the code instead falls through
to the first-of-five fallback and returns the label line `"Nama:"` itself. -/
theorem name_label_remainder_counterexample :
    (parse_ktp_text "Nama:\nBUDI").name = "Nama:"
      ∧ claimNameC5 (ktpLines "Nama:\nBUDI") = ""
      ∧ ktpLines "Nama:\nBUDI" = ["Nama:", "BUDI"]
      ∧ ("Nama:" : String) ≠ "" ∧ ("Nama:" : String) ≠ "BUDI" := by
  exact ⟨by rfl, by rfl, by rfl, by decide, by decide⟩

/-- On lines free of the birth-label pattern, the birth-date accumulator is
the left fold of the direct date-pattern branch: the last matching line
wins. -/
theorem birthScan_no_label :
    ∀ (lines : List String), (∀ l ∈ lines, birthLabelSearch l = false) →
      ∀ bp bd, (birthScan lines bp bd).2
        = lines.foldl (fun acc l => dateUpdate l acc) bd := by
  intro lines
  induction lines with
  | nil => intro _ bp bd; rfl
  | cons l ls ih =>
    intro h bp bd
    have hl : birthLabelSearch l = false := h l (List.mem_cons_self _ _)
    have hunf : birthScan (l :: ls) bp bd = birthScanBody l bp bd (birthScan ls) := rfl
    rw [hunf]
    unfold birthScanBody
    rw [hl, if_neg (fun hh => Bool.false_ne_true hh)]
    rw [List.foldl_cons]
    exact ih (fun x hx => h x (List.mem_cons_of_mem _ hx))
      (tempatUpdate l bp) (dateUpdate l bd)

/-- C6 (amended): (1) on texts none of whose lines match the birth-label
pattern, `birth_date` is last-match-wins over the direct date-pattern
branch (the left fold of that branch over the lines); (2) when the
label-based branch completes `birth_date` on a line, the scan stops there,
so no later direct match ever overwrites a label-based match; (3) a line
starting with a bare "Tempat" label (when the scan does not stop) sets
`birth_place` directly. -/
theorem birth_date_last_match_amended (text : String)
    (hg : ¬ (text = "" ∨ pyStrip text = ""))
    (httl : ∀ l ∈ ktpLines text, birthLabelSearch l = false) :
    ((parse_ktp_text text).birth_date
        = (ktpLines text).foldl (fun acc l => dateUpdate l acc) "")
      ∧ (∀ l ls bp bd, birthLabelSearch l = true →
          (birthParts (splitTTL l) bp bd).2 ≠ "" →
          birthScan (l :: ls) bp bd = birthParts (splitTTL l) bp bd)
      ∧ (∀ l ls bp bd v, birthLabelSearch l = false →
          labelRest "tempat" l = some v →
          birthScan (l :: ls) bp bd
            = birthScan ls (String.mk (stripL v)) (dateUpdate l bd)) := by
  refine ⟨?_, ?_, ?_⟩
  · unfold parse_ktp_text
    rw [if_neg hg]
    dsimp only
    exact birthScan_no_label (ktpLines text) httl "" ""
  · intro l ls bp bd hl hbd
    have hunf : birthScan (l :: ls) bp bd = birthScanBody l bp bd (birthScan ls) := rfl
    rw [hunf]
    unfold birthScanBody
    rw [hl, if_pos rfl]
    dsimp only
    rw [if_pos hbd]
  · intro l ls bp bd v hl hv
    have hunf : birthScan (l :: ls) bp bd = birthScanBody l bp bd (birthScan ls) := rfl
    rw [hunf]
    unfold birthScanBody
    rw [hl, if_neg (fun hh => Bool.false_ne_true hh)]
    unfold tempatUpdate
    rw [hv]

/-- Witness for C6 at a concrete input: a two-line text with no birth-label
line, whose first line is a date; the fold keeps that (only) direct match. -/
theorem birth_date_last_match_amended_witness :
    (¬ (("05-05-1995\nBUDI" : String) = "" ∨ pyStrip "05-05-1995\nBUDI" = ""))
      ∧ (∀ l ∈ ktpLines "05-05-1995\nBUDI", birthLabelSearch l = false)
      ∧ (parse_ktp_text "05-05-1995\nBUDI").birth_date
          = (ktpLines "05-05-1995\nBUDI").foldl (fun acc l => dateUpdate l acc) "" := by
  refine ⟨by decide, by decide, ?_⟩
  exact (birth_date_last_match_amended "05-05-1995\nBUDI" (by decide) (by decide)).1

/-- C6 (counterexample to the claim as stated): the first line completes
`birth_date` through the label-based branch and breaks the scan, so the
later line `"31/12/1999"`, which matches the direct date pattern, does not
overwrite it — last-match-wins fails exactly where the claim asserts it. -/
theorem birth_date_overwrite_counterexample :
    (parse_ktp_text "TTL Jakarta, 01-02-1990\n31/12/1999").birth_date
        = "01-02-1990"
      ∧ dateSearch "31/12/1999" = true
      ∧ (ktpLines "TTL Jakarta, 01-02-1990\n31/12/1999").getLast?
          = some "31/12/1999"
      ∧ ("01-02-1990" : String) ≠ "31/12/1999" := by
  exact ⟨by rfl, by rfl, by rfl, by decide⟩

/-- C7 (amended): the worker stores the returned text stripped of
surrounding whitespace (not verbatim), sets `ocr_processed_at` to now,
stores the parser output in `ocr_data` when the type code is "ktp" and
the stripped text is non-empty, and otherwise leaves `ocr_data` unchanged
(in particular still empty when it was empty). -/
theorem ocr_success_fields_amended (doc : OcrDoc) (txt : String) (now : Nat) :
    (process_document_ocr_success doc txt now).ocr_text = pyStrip txt
      ∧ (process_document_ocr_success doc txt now).ocr_processed_at = some now
      ∧ (doc.docTypeCode = some "ktp" → pyStrip txt ≠ "" →
          (process_document_ocr_success doc txt now).ocr_data
            = ktpDataToMap (parse_ktp_text (pyStrip txt)))
      ∧ (¬ (doc.docTypeCode = some "ktp" ∧ pyStrip txt ≠ "") →
          (process_document_ocr_success doc txt now).ocr_data = doc.ocr_data) := by
  refine ⟨rfl, rfl, ?_, ?_⟩
  · intro h1 h2
    unfold process_document_ocr_success
    dsimp only
    rw [if_pos ⟨h1, h2⟩]
  · intro h
    unfold process_document_ocr_success
    dsimp only
    rw [if_neg h]
    by_cases he : doc.ocr_data.isEmpty = true
    · rw [if_pos he]
      exact (List.isEmpty_iff.mp he).symm
    · rw [if_neg he]

/-- Witness for C7: the KTP branch on a non-empty text, and the
leave-unchanged branch on a non-KTP document with prior `ocr_data`. -/
theorem ocr_success_fields_amended_witness :
    (process_document_ocr_success ⟨some "ktp", "", [], none⟩
        "  Nama: BUDI  " 2).ocr_data
        = ktpDataToMap (parse_ktp_text (pyStrip "  Nama: BUDI  "))
      ∧ (process_document_ocr_success ⟨some "paspor", "x", [("k", "v")], none⟩
          "hi" 2).ocr_data
        = [("k", "v")] := by
  refine ⟨(ocr_success_fields_amended ⟨some "ktp", "", [], none⟩
    "  Nama: BUDI  " 2).2.2.1 rfl (by decide), ?_⟩
  exact (ocr_success_fields_amended ⟨some "paspor", "x", [("k", "v")], none⟩
    "hi" 2).2.2.2 (by decide)

/-- C7 (counterexample to the claim as stated): the capability returns
`" BUDI " + newline` but the stored `ocr_text` is the stripped `"BUDI"`,
so the text is not stored verbatim. -/
theorem ocr_text_not_verbatim_counterexample :
    (process_document_ocr_success ⟨some "paspor", "", [], none⟩
        " BUDI \n" 5).ocr_text = "BUDI"
      ∧ (" BUDI \n" : String) ≠ "BUDI" := by
  exact ⟨by rfl, by decide⟩

/-! ### Theorems for claim C9 -/

/-- Fuel sufficiency: any fuel exceeding the starting side length completes
the shrink loop, and the final state meets the budget or sits at or below
the 320 px floor.  The side length strictly decreases each iteration while
it exceeds the floor, which is exactly why the floor is a hard stop. -/
theorem shrink_loop_fuel (encSize : Nat → Nat) (target : Nat) :
    ∀ fuel maxSide bufSize, maxSide < fuel →
      ∃ r, optimizeShrinkLoop encSize target fuel bufSize maxSide = some r
        ∧ (r.1 ≤ target ∨ r.2 ≤ 320) := by
  intro fuel
  induction fuel with
  | zero => intro maxSide bufSize h; omega
  | succ f ih =>
    intro maxSide bufSize h
    unfold optimizeShrinkLoop
    by_cases hc : bufSize > target ∧ maxSide > 320
    · rw [if_pos hc]
      have hlt : shrinkStep maxSide < maxSide := by
        unfold shrinkStep
        omega
      exact ih (shrinkStep maxSide) (encSize (shrinkStep maxSide)) (by omega)
    · rw [if_neg hc]
      exact ⟨(bufSize, maxSide), rfl, by
        rcases Nat.lt_or_ge target bufSize with hb | hb
        · refine Or.inr ?_
          by_contra hside
          exact hc ⟨hb, by omega⟩
        · exact Or.inl hb⟩

/-- C9 (amended): for every encoder, budget and starting state the
secondary shrink loop terminates — fuel `maxSide + 1` always suffices —
with a final state that either meets the byte budget or has side length at
or below the 320 px floor.  The floor in the loop condition is a hard stop
that by itself guarantees termination. -/
theorem shrink_loop_terminates_amended (encSize : Nat → Nat) (target : Nat)
    (bufSize maxSide : Nat) :
    ∃ r, optimizeShrinkLoop encSize target (maxSide + 1) bufSize maxSide = some r
      ∧ (r.1 ≤ target ∨ r.2 ≤ 320) :=
  shrink_loop_fuel encSize target (maxSide + 1) maxSide bufSize (by omega)

/-- C9 (counterexample to the claim as stated): with an encoder that never
meets the budget (constant 10^9 bytes against a 512000-byte budget),
starting from side 2048, the loop nevertheless halts after seven shrink
steps at side 273 ≤ 320 — the floor is enforced as a hard stop in the loop
condition and alone terminates the loop, contrary to the claim. -/
theorem shrink_loop_floor_hard_stop_counterexample :
    optimizeShrinkLoop (fun _ => 1000000000) 512000 2049 1000000000 2048
      = some (1000000000, 273)
    ∧ 273 ≤ 320 ∧ 512000 < 1000000000 := by
  exact ⟨by rfl, by omega, by omega⟩

end KmsConnect
